import Mathlib

set_option maxRecDepth 8000

/-!
Verification development for the tiled geospatial gym-search engine of
`gymapp/services.py`.

Shallow embedding conventions:
* Python floats used for coordinates are modelled as `ℚ`; integer radii as `ℤ`.
* `h3.latlng_to_cell` is an opaque external library call, modelled as an
  abstract parameter `h3cell : ℚ → ℚ → String` (the worker always uses
  resolution 8 for cache keys).
* `math.cos (math.radians lat)` is transcendental; it is modelled as an
  abstract parameter `cosOfLat : ℚ → ℚ`.
* The haversine distance functions (`haversine_m`, `calculate_distance`
  composed with `round(·, 2)`) are transcendental; the pipeline is
  parametrised over them (`distM`, `distMi`).  All claims proved here are
  independent of the concrete distance values.
* Network fetches are modelled by oracles returning `Except Unit PageData`;
  `Except.error` models an exception raised during fetch/parse.
* Python truthiness is modelled explicitly: an empty string and the float 0
  are falsy (`truthyStr`, `truthyQ`).
-/

/-- A Google Places result item, restricted to the fields the search engine
reads: `place_id`, `name`, `types`, and `geometry.location.lat` and
`geometry.location.lng` (absent or null keys are `none`). -/
structure Venue where
  place_id : Option String
  name : String
  types : List String
  lat : Option ℚ
  lng : Option ℚ
deriving DecidableEq

/-- One entry of the worker pool's `results_out` list:
`(lat, lon, tile_r, results)` exactly as appended in `worker`. -/
abbrev TileResult := ℚ × ℚ × ℤ × List Venue

/-- Python truthiness of an optional string (`if pid:`): `None` and the
empty string are falsy. -/
def truthyStr : Option String → Option String
  | some s => if s = "" then none else some s
  | none => none

/-- Python truthiness of an optional number (`if gym_lat:`): `None` and `0`
are falsy. -/
def truthyQ : Option ℚ → Option ℚ
  | some x => if x = 0 then none else some x
  | none => none

/-- ASCII lower-casing of one character, modelling `str.lower()` on the
ASCII keyword data the filter uses. -/
def lowerChar (c : Char) : Char :=
  if 'A' ≤ c ∧ c ≤ 'Z' then Char.ofNat (c.toNat + 32) else c

/-- Model of `name.lower()` of the source, as a map over the characters. -/
def toLowerStr (s : String) : String := String.mk (s.data.map lowerChar)

/-- Whether `pat` occurs at the head of `hay`. -/
def charsPre : List Char → List Char → Bool
  | [], _ => true
  | _ :: _, [] => false
  | a :: as, b :: bs => a = b && charsPre as bs

/-- Whether `pat` occurs as a contiguous sublist of `hay`; models the
Python substring test `pat in hay`. -/
def charsHas (hay pat : List Char) : Bool :=
  charsPre pat hay ||
    match hay with
    | [] => false
    | _ :: rest => charsHas rest pat

/-- Python `sub in s` on strings. -/
def containsStr (s sub : String) : Bool := charsHas s.data sub.data

/-- The `exclude_keywords` list of `is_traditional_gym` in `search_gyms_nearby_async`. -/
def exclude_keywords : List String :=
  ["yoga", "pilates", "barre", "dance", "martial arts", "karate", "taekwondo",
   "gymnastics", "gymnastic", "cheerleading", "ballet", "zumba", "spinning",
   "crossfit", "boxing", "kickboxing", "mma", "jiu jitsu", "aikido",
   "swimming", "pool", "aqua", "tennis", "racquet", "golf", "bowling",
   "archery", "shooting", "climbing", "rock climbing", "bouldering",
   "studio", "wellness", "spa", "massage", "physical therapy", "rehabilitation",
   "therapy", "rehab", "medical", "clinic", "center", "academy", "school"]

/-- The `exclude_types` list of `is_traditional_gym`. -/
def exclude_types : List String :=
  ["yoga_studio", "dance_school", "martial_arts_school", "gymnastics_center",
   "swimming_pool", "tennis_court", "golf_course", "bowling_alley",
   "climbing_gym", "rock_climbing_gym", "spa", "beauty_salon",
   "physical_therapy", "medical_clinic", "health_clinic"]

/-- The `include_types` list of `is_traditional_gym`. -/
def include_types : List String :=
  ["gym", "health", "fitness", "sports_complex", "establishment"]

/-- The `is_traditional_gym` predicate of `search_gyms_nearby_async`: reject on excluded
place types, then on excluded name keywords (substring of the lower-cased
name), else accept when some included type is present. -/
def is_traditional_gym (v : Venue) : Bool :=
  let name := toLowerStr v.name
  if exclude_types.any (fun t => v.types.contains t) then false
  else if exclude_keywords.any (fun kw => containsStr name kw) then false
  else include_types.any (fun t => v.types.contains t)

/-- The flatten-and-dedup loop of `search_gyms_nearby_async`: walk the
venues in order, keep an item only when its `place_id` is truthy and not yet
seen. -/
def dedupByPid : List Venue → List String → List Venue
  | [], _ => []
  | v :: rest, seen =>
    match truthyStr v.place_id with
    | some pid =>
      if pid ∈ seen then dedupByPid rest seen
      else v :: dedupByPid rest (pid :: seen)
    | none => dedupByPid rest seen

/-- The `all_results` computation of `search_gyms_nearby_async`: per-tile result lists are
concatenated in order and deduplicated by `place_id`. -/
def flattenDedup (rs : List TileResult) : List Venue :=
  dedupByPid ((rs.map fun r => r.2.2.2).flatten) []

/-- Membership of a `place_id` among the ids of a bucket, as the worker's
`existing_ids` set test. -/
def pidIn (pid : String) (b : List Venue) : Bool :=
  b.any (fun v => decide (v.place_id = some pid))

/-- The pagination merge of the worker: append the new page's items to the
bucket, skipping items with a falsy `place_id` or one already present. -/
def mergeDedup (bucket out : List Venue) : List Venue :=
  out.foldl
    (fun b it =>
      match truthyStr it.place_id with
      | some pid => if pidIn pid b then b else b ++ [it]
      | none => b)
    bucket

/-- The circle-trim and category-filter loop of `search_gyms_nearby_async`
(`trimmed`): keep a venue when it passes `is_traditional_gym`, has both
coordinates present (`is not None`), and its haversine distance from the
search center is at most the requested radius.  `distM lat lng` abstracts
`haversine_m(latitude, longitude, lat, lng)`. -/
def trimFilter (distM : ℚ → ℚ → ℚ) (radius : ℤ) (vs : List Venue) : List Venue :=
  vs.filter fun it =>
    is_traditional_gym it &&
      match it.lat, it.lng with
      | some la, some ln => decide (distM la ln ≤ (radius : ℚ))
      | _, _ => false

/-- Whole post-processing of `search_gyms_nearby_async` after the worker
pool drains: flatten, dedup by `place_id`, then trim and filter. -/
def postProcess (distM : ℚ → ℚ → ℚ) (radius : ℤ) (rs : List TileResult) : List Venue :=
  trimFilter distM radius (flattenDedup rs)

/-- The distance-attachment loop of `GooglePlacesService.search_gyms_nearby`:
keep a venue only when both coordinates are truthy (0 counts as absent) and
attach `distance_miles`.  `distMi lat lng` abstracts
`round(calculate_distance(latitude, longitude, lat, lng), 2)`. -/
def attachDistances (distMi : ℚ → ℚ → ℚ) (vs : List Venue) : List (Venue × ℚ) :=
  vs.filterMap fun v =>
    match truthyQ v.lat, truthyQ v.lng with
    | some la, some ln => some (v, distMi la ln)
    | _, _ => none

/-- Ordered insertion used to model the final `filtered_results.sort`. -/
def insertLe {α : Type} (le : α → α → Bool) (a : α) : List α → List α
  | [] => [a]
  | b :: bs => if le a b then a :: b :: bs else b :: insertLe le a bs

/-- A sort by the boolean relation `le`, modelling Python's `list.sort`
(the claims only use that the result is sorted and a permutation). -/
def sortLe {α : Type} (le : α → α → Bool) : List α → List α
  | [] => []
  | a :: as => insertLe le a (sortLe le as)

/-- The sort key of `search_gyms_nearby`: ascending `distance_miles`. -/
def distLe (p q : Venue × ℚ) : Bool := decide (p.2 ≤ q.2)

/-- Outcome of `asyncio.wait_for(search_gyms_nearby_async(...), timeout=120)`
as seen by `GooglePlacesService.search_gyms_nearby`: a normal completion
carrying the drained `results_out`, a `TimeoutError`, or another exception. -/
inductive AsyncOutcome where
  | ok (results_out : List TileResult)
  | timeout
  | failed
deriving DecidableEq

/-- Model of `GooglePlacesService.search_gyms_nearby`: on success post-process the
worker results; on `asyncio.TimeoutError` or any other exception set
`results = []`; then attach distances, drop venues with falsy coordinates,
and sort ascending by the attached distance. -/
def search_gyms_nearby (distM distMi : ℚ → ℚ → ℚ) (radius : ℤ)
    (o : AsyncOutcome) : List (Venue × ℚ) :=
  let results : List Venue :=
    match o with
    | .ok rs => postProcess distM radius rs
    | .timeout => []
    | .failed => []
  sortLe distLe (attachDistances distMi results)

/-- Python `int(x)` on a float: truncation toward zero. -/
def pyInt (x : ℚ) : ℤ := if 0 ≤ x then Int.floor x else -Int.floor (-x)

/-- The adaptive H3 resolution choice shared by `grid_centers`,
`async_get_cached` and `async_set_cached` (argument in kilometers). -/
def h3_resolution (radius_km : ℚ) : ℕ :=
  if radius_km ≤ 50 then 8 else if radius_km ≤ 100 then 7 else 6

/-- The `hex_diameters` table of `grid_centers`, in kilometers
(0.74 km = 37/50, 1.5 km = 3/2). -/
def hex_diameter_km : ℕ → ℚ
  | 5 => 6
  | 6 => 3
  | 7 => 3 / 2
  | 8 => 37 / 50
  | _ => 0

/-- The ring-count computation of `grid_centers`:
`max(1, int(radius_km / hex_diameter_km) + 1)` at the resolution selected
for the search radius (in meters). -/
def rings_needed (radius_m : ℤ) : ℤ :=
  let radius_km : ℚ := (radius_m : ℚ) / 1000
  let res := h3_resolution radius_km
  max 1 (pyInt (radius_km / hex_diameter_km res) + 1)

/-- Modelled from the spec (for comparison with `rings_needed`): the ring
count the specification states, `ceil(radius_meters / approx_cell_diameter
(resolution)) + 1`. -/
def rings_needed_spec (radius_m : ℤ) : ℤ :=
  let radius_km : ℚ := (radius_m : ℚ) / 1000
  let res := h3_resolution radius_km
  Int.ceil (radius_km / hex_diameter_km res) + 1

/-- Model of `split_tile`: four children, offset diagonally by `0.8 * r_m` meters in
each axis (converted to degrees with 111320 m per degree of latitude and
`111320 * cos lat` per degree of longitude), child radius
`max(500, r_m // 2)`.  `cosOfLat` abstracts `math.cos(math.radians lat)`. -/
def split_tile (cosOfLat : ℚ → ℚ) (lat lon : ℚ) (r_m : ℤ) :
    List (ℚ × ℚ × ℤ) :=
  let metersPerDegLat : ℚ := 111320
  let metersPerDegLon : ℚ := metersPerDegLat * cosOfLat lat
  let step : ℚ := (r_m : ℚ) * (4 / 5)
  let dlat : ℚ := step / metersPerDegLat
  let dlon : ℚ := step / metersPerDegLon
  let child_r : ℤ := max 500 (r_m / 2)
  [(lat - dlat, lon - dlon, child_r),
   (lat - dlat, lon + dlon, child_r),
   (lat + dlat, lon - dlon, child_r),
   (lat + dlat, lon + dlon, child_r)]

/-- The worker's cache key: `f"{h3.latlng_to_cell(lat, lon, 8)}|{tile_r}"`,
with the H3 call abstract. -/
def cacheKeyW (h3cell : ℚ → ℚ → String) (lat lon : ℚ) (r : ℤ) : String :=
  h3cell lat lon ++ "|" ++ toString r

/-- First-match lookup in an association list, modelling a Python dict
read (insertions shadow older entries). -/
def mapGet {α : Type} : List (String × α) → String → Option α
  | [], _ => none
  | (k2, v) :: rest, k => if k2 = k then some v else mapGet rest k

/-- Dict write: the new binding shadows any older one. -/
def mapSet {α : Type} (m : List (String × α)) (k : String) (v : α) :
    List (String × α) := (k, v) :: m

/-- Dict `pop`: drop every binding of the key. -/
def mapDel {α : Type} (m : List (String × α)) (k : String) :
    List (String × α) := m.filter (fun p => decide (p.1 ≠ k))

/-- A job of the worker queue: a `(lat, lon, tile_r)` tile tuple, or a
`("PAGINATE", token, lat, lon, tile_r)` pagination tuple. -/
inductive Job where
  | tile (lat lon : ℚ) (r : ℤ)
  | paginate (tok : String) (lat lon : ℚ) (r : ℤ)
deriving DecidableEq

/-- A decoded provider response, restricted to the fields the worker reads. -/
structure PageData where
  status : String
  results : List Venue
  next_page_token : Option String
deriving DecidableEq

/-- The mutable state shared by the worker pool in
`search_gyms_nearby_async`: the job queue, `results_out`,
`aggregate_results`, `request_cache` and `cache_write_queue`.  `steps`
counts processed jobs and indexes the fetch oracle. -/
structure WState where
  queue : List Job
  results_out : List TileResult
  aggregate : List (String × List Venue)
  request_cache : List (String × List Venue)
  cache_writes : List (String × ℚ × ℚ × ℤ × List Venue)
  steps : ℕ
deriving DecidableEq

/-- Shared tail of the Tile branch once a page needs no pagination: cache
the page (request cache and batched write queue), then the saturation
check — split into 4 children when `len(out) >= 60 and tile_r > 500`
(discarding the parent from `results_out`), else append to `results_out`. -/
def tileFinish (h3cell : ℚ → ℚ → String) (cosOfLat : ℚ → ℚ)
    (lat lon : ℚ) (r : ℤ) (out : List Venue) (s : WState) : WState :=
  let key := cacheKeyW h3cell lat lon r
  let s1 := { s with request_cache := mapSet s.request_cache key out,
                     cache_writes := s.cache_writes ++ [(key, lat, lon, r, out)] }
  if out.length ≥ 60 ∧ r > 500 then
    { s1 with queue := s1.queue ++
        (split_tile cosOfLat lat lon r).map (fun c => Job.tile c.1 c.2.1 c.2.2) }
  else
    { s1 with results_out := s1.results_out ++ [(lat, lon, r, out)] }

/-- Saturation handling of a cache hit in the Tile branch: split without
caching anew, or append the cached venues to `results_out`. -/
def cachedFinish (cosOfLat : ℚ → ℚ) (lat lon : ℚ) (r : ℤ)
    (cached : List Venue) (s : WState) : WState :=
  if cached.length ≥ 60 ∧ r > 500 then
    { s with queue := s.queue ++
        (split_tile cosOfLat lat lon r).map (fun c => Job.tile c.1 c.2.1 c.2.2) }
  else
    { s with results_out := s.results_out ++ [(lat, lon, r, cached)] }

/-- One worker iteration of the `worker` loop on one dequeued job.
`resp` is the outcome of the (at most one) `throttled_get` this iteration
performs; `Except.error` models an exception raised during fetch/parse, in
which case the `except` clause appends `(lat, lon, tile_r, [])`.
`dbGet` abstracts `async_get_cached` during the run. -/
def processJob (h3cell : ℚ → ℚ → String)
    (dbGet : ℚ → ℚ → ℤ → Option (List Venue)) (cosOfLat : ℚ → ℚ)
    (resp : Except Unit PageData) (j : Job) (s : WState) : WState :=
  match j with
  | .paginate _tok lat lon r =>
    match resp with
    | .error _ => { s with results_out := s.results_out ++ [(lat, lon, r, [])] }
    | .ok data =>
      if data.status = "OK" then
        let out := data.results
        let key := cacheKeyW h3cell lat lon r
        let merged := mergeDedup ((mapGet s.aggregate key).getD []) out
        let s1 := { s with aggregate := mapSet s.aggregate key merged }
        match truthyStr data.next_page_token with
        | some t => { s1 with queue := s1.queue ++ [Job.paginate t lat lon r] }
        | none =>
          let full := (mapGet s1.aggregate key).getD out
          { s1 with aggregate := mapDel s1.aggregate key,
                    request_cache := mapSet s1.request_cache key full,
                    cache_writes := s1.cache_writes ++ [(key, lat, lon, r, full)],
                    results_out := s1.results_out ++ [(lat, lon, r, full)] }
      else { s with results_out := s.results_out ++ [(lat, lon, r, [])] }
  | .tile lat lon r =>
    let key := cacheKeyW h3cell lat lon r
    match mapGet s.request_cache key with
    | some cached => cachedFinish cosOfLat lat lon r cached s
    | none =>
      match dbGet lat lon r with
      | some (v :: vs) =>
        cachedFinish cosOfLat lat lon r (v :: vs)
          { s with request_cache := mapSet s.request_cache key (v :: vs) }
      | _ =>
        match resp with
        | .error _ => { s with results_out := s.results_out ++ [(lat, lon, r, [])] }
        | .ok data =>
          let out := data.results
          match truthyStr data.next_page_token with
          | some t =>
            if out.length = 20 then
              { s with aggregate := mapSet s.aggregate key (mergeDedup [] out),
                       queue := s.queue ++ [Job.paginate t lat lon r] }
            else tileFinish h3cell cosOfLat lat lon r out s
          | none => tileFinish h3cell cosOfLat lat lon r out s

/-- Sequential driver of the queue: pop the head job, feed it the next
oracle response, repeat until the queue drains (or fuel runs out).  This
is the single-worker schedule of the pool; jobs enqueued by a worker go to
the back of the FIFO queue. -/
def runQueue (h3cell : ℚ → ℚ → String)
    (dbGet : ℚ → ℚ → ℤ → Option (List Venue)) (cosOfLat : ℚ → ℚ)
    (oracle : ℕ → Except Unit PageData) : ℕ → WState → WState
  | 0, s => s
  | fuel + 1, s =>
    match s.queue with
    | [] => s
    | j :: rest =>
      runQueue h3cell dbGet cosOfLat oracle fuel
        (processJob h3cell dbGet cosOfLat (oracle s.steps) j
          { s with queue := rest, steps := s.steps + 1 })

/-- The `while next_token and page < 3` loop of `fetch_pages`.  `fuel` is
`3 - page`; `idx` indexes the follow-up page oracle.  The second component
counts the provider requests the loop performs. -/
def fetch_pages_go (pages : ℕ → PageData) :
    ℕ → ℕ → List Venue → Option String → List Venue × ℕ
  | 0, _, out, _ => (out, 0)
  | _ + 1, _, out, none => (out, 0)
  | fuel + 1, idx, out, some tok =>
    if tok = "" then (out, 0)
    else
      let data := pages idx
      if data.status = "OK" then
        let r := fetch_pages_go pages fuel (idx + 1)
          (mergeDedup out data.results) data.next_page_token
        (r.1, r.2 + 1)
      else (out, 1)

/-- Model of `fetch_pages`: fetch the first page, keep only `OK`/`ZERO_RESULTS`
responses, dedup by `place_id`, then follow continuation tokens while
`page < 3`.  Returns the venues and the number of provider requests made
(always at least the initial one). -/
def fetch_pages (first : PageData) (pages : ℕ → PageData) : List Venue × ℕ :=
  if first.status = "OK" ∨ first.status = "ZERO_RESULTS" then
    let r := fetch_pages_go pages 2 0 (mergeDedup [] first.results)
      first.next_page_token
    (r.1, r.2 + 1)
  else ([], 1)

/-- A row of the `gym_review_tile_cache` table.  Timestamps are integers
(seconds). -/
structure CacheRow where
  cache_key : String
  latitude : ℚ
  longitude : ℚ
  tile_radius : ℤ
  results_data : List Venue
  created_at : ℤ
  expires_at : ℤ
deriving DecidableEq

/-- Model of the `async_get_cached` body: select the row with the key and
`expires_at > NOW()` and return its venue list; otherwise delete the
expired rows for that key and return `None`.  Returns the value and the
updated table. -/
def async_get_cached (now : ℤ) (key : String) (store : List CacheRow) :
    Option (List Venue) × List CacheRow :=
  match store.find? (fun row => decide (row.cache_key = key ∧ now < row.expires_at)) with
  | some row => (some row.results_data, store)
  | none =>
    (none, store.filter (fun row => decide (¬(row.cache_key = key ∧ row.expires_at ≤ now))))

/-- The `INSERT ... ON CONFLICT (cache_key) DO UPDATE` upsert shared by
`async_set_cached` and `batch_cache_write`: update `results_data` and
`expires_at` of existing rows with the key, else insert a fresh row. -/
def upsertRow (now : ℤ) (key : String) (lat lon : ℚ) (r : ℤ)
    (data : List Venue) (expires : ℤ) (store : List CacheRow) : List CacheRow :=
  if store.any (fun row => decide (row.cache_key = key)) then
    store.map (fun row =>
      if row.cache_key = key then
        { row with results_data := data, expires_at := expires }
      else row)
  else store ++ [⟨key, lat, lon, r, data, now, expires⟩]

/-- Model of `async_set_cached`: upsert with
`expires_at = timezone.now() + timedelta(days=ttl_days)` (seconds). -/
def async_set_cached (now : ℤ) (key : String) (lat lon : ℚ) (r : ℤ)
    (data : List Venue) (ttl_days : ℤ) (store : List CacheRow) : List CacheRow :=
  upsertRow now key lat lon r data (now + ttl_days * 86400) store

/-- A venue fixture with a distinct `place_id` per index. -/
def mkV (i : ℕ) : Venue := ⟨some ("p" ++ toString i), "", ["gym"], none, none⟩

/-- The list of the first `n` venue fixtures. -/
def mkVs (n : ℕ) : List Venue := (List.range n).map mkV

/-- A concrete H3-cell oracle for runs (one shared cell). -/
def h3cFix : ℚ → ℚ → String := fun _ _ => "h"

/-- A database-cache oracle that always misses. -/
def dbMiss : ℚ → ℚ → ℤ → Option (List Venue) := fun _ _ _ => none

/-- A concrete cosine oracle for runs. -/
def cosFix : ℚ → ℚ := fun _ => 1

/-- A concrete distance oracle (every venue at distance 0). -/
def distFix : ℚ → ℚ → ℚ := fun _ _ => 0

/-- An initial worker state with the given seeded queue. -/
def initW (q : List Job) : WState := ⟨q, [], [], [], [], 0⟩

/-- Fetch oracle of the pagination-ceiling run: the tile fetch returns a
full page of 20 with a token, and every following pagination page returns
status `OK` with a fresh continuation token. -/
def orcPages : ℕ → Except Unit PageData := fun n =>
  if n = 0 then .ok ⟨"OK", mkVs 20, some "t1"⟩
  else .ok ⟨"OK", [], some ("t" ++ toString (n + 1))⟩

/-- Fetch oracle of the saturated-aggregate run: a full first page of 20
with a token, then one final page of 41 more venues and no token, giving a
61-venue aggregate. -/
def orcBigAgg : ℕ → Except Unit PageData := fun n =>
  if n = 0 then .ok ⟨"OK", mkVs 20, some "t1"⟩
  else .ok ⟨"OK", (List.range 41).map (fun i => mkV (20 + i)), none⟩

/-- A venue fixture that passes the category filter and has nonzero
coordinates. -/
def vGym : Venue := ⟨some "p1", "", ["gym"], some 1, some 1⟩

/-- A venue fixture with zero latitude (falsy coordinate). -/
def vZero : Venue := ⟨some "p2", "", ["gym"], some 0, some 1⟩

/-- A saturated final page: 60 results, no continuation token. -/
def pageSat : PageData := ⟨"OK", mkVs 60, none⟩

/-- An `OK` page carrying a further continuation token. -/
def pageTok : PageData := ⟨"OK", [], some "t9"⟩

/-- An `OK` final page with one venue and no continuation token. -/
def pageEnd : PageData := ⟨"OK", [vGym], none⟩

theorem dedupByPid_mem : ∀ (l : List Venue) (seen : List String) (v : Venue),
    v ∈ dedupByPid l seen → ∃ p, truthyStr v.place_id = some p ∧ p ∉ seen := by
  intro l
  induction l with
  | nil => intro seen v h; simp [dedupByPid] at h
  | cons a rest ih =>
    intro seen v h
    unfold dedupByPid at h
    split at h
    · split at h
      · exact ih seen v h
      · rename_i pid hp hmem
        rcases List.mem_cons.mp h with rfl | h2
        · exact ⟨pid, hp, hmem⟩
        · rcases ih _ v h2 with ⟨p, hp2, hnot⟩
          exact ⟨p, hp2, fun hc => hnot (List.mem_cons_of_mem _ hc)⟩
    · exact ih seen v h

theorem dedupByPid_pairwise : ∀ (l : List Venue) (seen : List String),
    List.Pairwise (fun a b => truthyStr a.place_id ≠ truthyStr b.place_id)
      (dedupByPid l seen) := by
  intro l
  induction l with
  | nil => intro seen; simp [dedupByPid]
  | cons a rest ih =>
    intro seen
    unfold dedupByPid
    split
    · split
      · exact ih seen
      · rename_i pid hp hmem
        refine List.Pairwise.cons ?_ (ih _)
        intro b hb
        rcases dedupByPid_mem _ _ _ hb with ⟨p, hpb, hnot⟩
        rw [hp, hpb]
        intro hEq
        injection hEq with h2
        exact hnot (h2 ▸ List.mem_cons_self _ _)
    · exact ih seen

theorem insertLe_perm {α : Type} (le : α → α → Bool) (a : α) :
    ∀ l : List α, (insertLe le a l).Perm (a :: l) := by
  intro l
  induction l with
  | nil => simp [insertLe]
  | cons b bs ih =>
    unfold insertLe
    by_cases h : le a b = true
    · rw [if_pos h]
    · rw [if_neg h]
      exact (ih.cons b).trans (List.Perm.swap a b bs)

theorem sortLe_perm {α : Type} (le : α → α → Bool) :
    ∀ l : List α, (sortLe le l).Perm l := by
  intro l
  induction l with
  | nil => simp [sortLe]
  | cons a as ih =>
    unfold sortLe
    exact (insertLe_perm le a (sortLe le as)).trans (ih.cons a)

theorem insertLe_pairwise {α : Type} (le : α → α → Bool)
    (htot : ∀ x y, le x y = true ∨ le y x = true)
    (htr : ∀ x y z, le x y = true → le y z = true → le x z = true) (a : α) :
    ∀ l, List.Pairwise (fun x y => le x y = true) l →
      List.Pairwise (fun x y => le x y = true) (insertLe le a l) := by
  intro l
  induction l with
  | nil => intro _; simp [insertLe]
  | cons b bs ih =>
    intro hp
    rcases List.pairwise_cons.mp hp with ⟨hb, hbs⟩
    unfold insertLe
    by_cases h : le a b = true
    · rw [if_pos h]
      refine List.pairwise_cons.mpr ⟨?_, hp⟩
      intro x hx
      rcases List.mem_cons.mp hx with rfl | hx2
      · exact h
      · exact htr a b x h (hb x hx2)
    · rw [if_neg h]
      refine List.pairwise_cons.mpr ⟨?_, ih hbs⟩
      intro x hx
      rcases List.mem_cons.mp (((insertLe_perm le a bs).mem_iff).mp hx) with hxa | hx2
      · rw [hxa]
        rcases htot a b with h1 | h1
        · exact absurd h1 h
        · exact h1
      · exact hb x hx2

theorem sortLe_pairwise {α : Type} (le : α → α → Bool)
    (htot : ∀ x y, le x y = true ∨ le y x = true)
    (htr : ∀ x y z, le x y = true → le y z = true → le x z = true) :
    ∀ l : List α, List.Pairwise (fun x y => le x y = true) (sortLe le l) := by
  intro l
  induction l with
  | nil => simp [sortLe]
  | cons a as ih => exact insertLe_pairwise le htot htr a _ ih

theorem attach_eq_some {distMi : ℚ → ℚ → ℚ} {a : Venue} {p : Venue × ℚ}
    (h : (match truthyQ a.lat, truthyQ a.lng with
          | some la, some ln => some (a, distMi la ln)
          | _, _ => none) = some p) :
    p.1 = a ∧ ∃ la ln, truthyQ a.lat = some la ∧ truthyQ a.lng = some ln ∧
      p.2 = distMi la ln := by
  cases h1 : truthyQ a.lat with
  | none => rw [h1] at h; cases h2 : truthyQ a.lng <;> rw [h2] at h <;> simp at h
  | some la =>
    rw [h1] at h
    cases h2 : truthyQ a.lng with
    | none => rw [h2] at h; simp at h
    | some ln =>
      rw [h2] at h
      simp only [Option.some.injEq] at h
      refine ⟨?_, la, ln, rfl, rfl, ?_⟩
      · rw [← h]
      · rw [← h]

theorem mem_attachDistances {distMi : ℚ → ℚ → ℚ} {vs : List Venue}
    {v : Venue} {q : ℚ} (h : (v, q) ∈ attachDistances distMi vs) :
    v ∈ vs ∧ ∃ la ln, truthyQ v.lat = some la ∧ truthyQ v.lng = some ln ∧
      q = distMi la ln := by
  rcases List.mem_filterMap.mp h with ⟨a, ha, hf⟩
  rcases attach_eq_some hf with ⟨h1, la, ln, h2, h3, h4⟩
  cases h1
  exact ⟨ha, la, ln, h2, h3, h4⟩

theorem mem_trimFilter {distM : ℚ → ℚ → ℚ} {radius : ℤ} {vs : List Venue}
    {v : Venue} (h : v ∈ trimFilter distM radius vs) :
    v ∈ vs ∧ is_traditional_gym v = true ∧
      ∃ la ln, v.lat = some la ∧ v.lng = some ln ∧ distM la ln ≤ (radius : ℚ) := by
  rcases List.mem_filter.mp h with ⟨hmem, hpred⟩
  rw [Bool.and_eq_true] at hpred
  rcases hpred with ⟨hg, hrest⟩
  refine ⟨hmem, hg, ?_⟩
  cases h1 : v.lat with
  | none => rw [h1] at hrest; cases h2 : v.lng <;> rw [h2] at hrest <;> simp at hrest
  | some la =>
    rw [h1] at hrest
    cases h2 : v.lng with
    | none => rw [h2] at hrest; simp at hrest
    | some ln =>
      rw [h2] at hrest
      exact ⟨la, ln, rfl, rfl, of_decide_eq_true hrest⟩

/-- Distinct truthy place ids and sortedness are preserved by the
attach-and-sort tail of the top-level search. -/
theorem attachSort_props (distMi : ℚ → ℚ → ℚ) (results : List Venue)
    (hvenues : List.Pairwise
      (fun a b : Venue => truthyStr a.place_id ≠ truthyStr b.place_id) results) :
    List.Pairwise (fun a b : Venue × ℚ => a.1.place_id ≠ b.1.place_id)
      (sortLe distLe (attachDistances distMi results)) ∧
    List.Pairwise (fun a b : Venue × ℚ => a.2 ≤ b.2)
      (sortLe distLe (attachDistances distMi results)) := by
  constructor
  · rw [((sortLe_perm distLe (attachDistances distMi results)).pairwise_iff
      (fun h => Ne.symm h))]
    apply List.pairwise_filterMap.mpr
    refine hvenues.imp ?_
    intro a b hne p hp p2 hp2
    rcases attach_eq_some hp with ⟨hpa, _, _, _, _, _⟩
    rcases attach_eq_some hp2 with ⟨hpb, _, _, _, _, _⟩
    rw [hpa, hpb]
    intro hid
    exact hne (congrArg truthyStr hid)
  · have hs := sortLe_pairwise distLe
      (fun x y => by
        rcases le_total x.2 y.2 with h | h
        · exact Or.inl (by simp [distLe, h])
        · exact Or.inr (by simp [distLe, h]))
      (fun x y z h1 h2 => by
        have h1q := of_decide_eq_true (p := x.2 ≤ y.2) h1
        have h2q := of_decide_eq_true (p := y.2 ≤ z.2) h2
        simp only [distLe, decide_eq_true_eq]
        exact le_trans h1q h2q)
      (attachDistances distMi results)
    exact hs.imp (fun h => of_decide_eq_true h)

/-- C6: the list returned by the top-level search is unique by
`place_id` (no two entries share a provider id, however many tiles or
pages returned the same venue) and is sorted ascending by the attached
distance value. -/
theorem C6_unique_and_sorted (distM distMi : ℚ → ℚ → ℚ) (radius : ℤ)
    (o : AsyncOutcome) :
    List.Pairwise (fun a b : Venue × ℚ => a.1.place_id ≠ b.1.place_id)
      (search_gyms_nearby distM distMi radius o) ∧
    List.Pairwise (fun a b : Venue × ℚ => a.2 ≤ b.2)
      (search_gyms_nearby distM distMi radius o) := by
  cases o with
  | ok rs =>
    exact attachSort_props distMi (postProcess distM radius rs)
      (List.Pairwise.sublist (List.filter_sublist _) (dedupByPid_pairwise _ []))
  | timeout => exact attachSort_props distMi [] (List.Pairwise.nil)
  | failed => exact attachSort_props distMi [] (List.Pairwise.nil)

/-- C7: every venue in the final search result lies within the requested
radius: membership in the top-level result implies both coordinates are
present and the great-circle distance from the center is at most `radius`,
so a venue beyond the radius is excluded even when some tile returned it. -/
theorem C7_circle_trim (distM distMi : ℚ → ℚ → ℚ) (radius : ℤ)
    (rs : List TileResult) (v : Venue) (q : ℚ)
    (hmem : (v, q) ∈ search_gyms_nearby distM distMi radius (AsyncOutcome.ok rs)) :
    ∃ la ln, v.lat = some la ∧ v.lng = some ln ∧ distM la ln ≤ (radius : ℚ) := by
  have h1 : (v, q) ∈ attachDistances distMi (postProcess distM radius rs) :=
    ((sortLe_perm distLe (attachDistances distMi (postProcess distM radius rs))).mem_iff).mp
      hmem
  rcases mem_attachDistances h1 with ⟨h2, _⟩
  rcases mem_trimFilter h2 with ⟨_, _, la, ln, h3, h4, h5⟩
  exact ⟨la, ln, h3, h4, h5⟩

theorem C7_circle_trim_witness :
    ((vGym, (0 : ℚ)) ∈
      search_gyms_nearby distFix distFix 5000 (AsyncOutcome.ok [(0, 0, 1500, [vGym])])) ∧
    ∃ la ln, vGym.lat = some la ∧ vGym.lng = some ln ∧
      distFix la ln ≤ ((5000 : ℤ) : ℚ) :=
  ⟨by decide,
   C7_circle_trim distFix distFix 5000 [(0, 0, 1500, [vGym])] vGym 0 (by decide)⟩

/-- Helper: a venue with a missing, null, or zero coordinate never survives
the attach-and-sort tail. -/
theorem zero_coord_not_in_attach (distMi : ℚ → ℚ → ℚ) (results : List Venue)
    (v : Venue) (q : ℚ)
    (hz : v.lat = none ∨ v.lat = some 0 ∨ v.lng = none ∨ v.lng = some 0) :
    (v, q) ∉ sortLe distLe (attachDistances distMi results) := by
  intro hmem
  have h1 : (v, q) ∈ attachDistances distMi results :=
    ((sortLe_perm distLe (attachDistances distMi results)).mem_iff).mp hmem
  rcases mem_attachDistances h1 with ⟨_, la, ln, hla, hln, _⟩
  rcases hz with h | h | h | h
  · rw [h] at hla; simp [truthyQ] at hla
  · rw [h] at hla; simp [truthyQ] at hla
  · rw [h] at hln; simp [truthyQ] at hln
  · rw [h] at hln; simp [truthyQ] at hln

/-- C10: a venue whose latitude or longitude is missing, null, or equal to
0 is excluded from the top-level result (the coordinate check treats 0 as
absent), whatever the distances are. -/
theorem C10_zero_coords_excluded (distM distMi : ℚ → ℚ → ℚ) (radius : ℤ)
    (o : AsyncOutcome) (v : Venue) (q : ℚ)
    (hz : v.lat = none ∨ v.lat = some 0 ∨ v.lng = none ∨ v.lng = some 0) :
    (v, q) ∉ search_gyms_nearby distM distMi radius o := by
  cases o with
  | ok rs => exact zero_coord_not_in_attach distMi (postProcess distM radius rs) v q hz
  | timeout => exact zero_coord_not_in_attach distMi [] v q hz
  | failed => exact zero_coord_not_in_attach distMi [] v q hz

theorem C10_zero_coords_excluded_witness :
    (vZero.lat = none ∨ vZero.lat = some 0 ∨ vZero.lng = none ∨ vZero.lng = some 0) ∧
    (vZero, (0 : ℚ)) ∉
      search_gyms_nearby distFix distFix 5000 (AsyncOutcome.ok [(0, 0, 1500, [vZero])]) :=
  ⟨Or.inr (Or.inl rfl),
   C10_zero_coords_excluded distFix distFix 5000 (AsyncOutcome.ok [(0, 0, 1500, [vZero])])
     vZero 0 (Or.inr (Or.inl rfl))⟩

/-- C1 counterexample: on timeout the top-level search returns the empty
list even when the worker accumulator held venues that would have produced
a nonempty result — the accumulated venues are not returned. -/
theorem C1_counterexample :
    search_gyms_nearby distFix distFix 5000 AsyncOutcome.timeout = [] ∧
    search_gyms_nearby distFix distFix 5000 (AsyncOutcome.ok [(0, 0, 1500, [vGym])])
      = [(vGym, 0)] := by
  constructor
  · rfl
  · decide

/-- C1 amended: when the 120 s overall timeout expires, the top-level
search returns the empty list (a non-fatal empty result, not an error);
whatever the accumulator held is discarded. -/
theorem C1_timeout_returns_empty (distM distMi : ℚ → ℚ → ℚ) (radius : ℤ) :
    search_gyms_nearby distM distMi radius AsyncOutcome.timeout = [] := rfl

/-- Helper: the no-pagination tail of the Tile branch under saturation
(`len(out) >= 60 and tile_r > 500`) enqueues the 4 split children and
leaves `results_out` unchanged. -/
theorem tileFinish_saturated (h3cell : ℚ → ℚ → String) (cosOfLat : ℚ → ℚ)
    (lat lon : ℚ) (r : ℤ) (out : List Venue) (s : WState)
    (hlen : out.length ≥ 60) (hr : r > 500) :
    (tileFinish h3cell cosOfLat lat lon r out s).queue
      = s.queue ++ (split_tile cosOfLat lat lon r).map
          (fun c => Job.tile c.1 c.2.1 c.2.2) ∧
    (tileFinish h3cell cosOfLat lat lon r out s).results_out = s.results_out := by
  unfold tileFinish
  rw [if_pos ⟨hlen, hr⟩]
  exact ⟨rfl, rfl⟩

/-- Helper: a fetched Tile job (both caches miss) whose page has at least
60 results never paginates (a full page has exactly 20) and runs the
saturation tail. -/
theorem processJob_fetch_saturated (h3cell : ℚ → ℚ → String)
    (dbGet : ℚ → ℚ → ℤ → Option (List Venue)) (cosOfLat : ℚ → ℚ)
    (lat lon : ℚ) (r : ℤ) (s : WState) (data : PageData)
    (hmiss : mapGet s.request_cache (cacheKeyW h3cell lat lon r) = none)
    (hdb : dbGet lat lon r = none) (hlen : data.results.length ≥ 60) :
    processJob h3cell dbGet cosOfLat (Except.ok data) (Job.tile lat lon r) s
      = tileFinish h3cell cosOfLat lat lon r data.results s := by
  simp only [processJob]
  split
  · rename_i cached hc
    rw [hmiss] at hc
    cases hc
  · split
    · rename_i v vs hc
      rw [hdb] at hc
      cases hc
    · split
      · rw [if_neg (by omega)]
      · rfl

/-- C5: a fetched Tile job with at least 60 results on a tile of radius
greater than 500 m enqueues exactly the 4 children of `split_tile` — each
center offset diagonally by `0.8 × r` meters in each axis (converted to
degrees) and each child radius `max 500 (r / 2)` — and the saturated
parent's venues are not appended to `results_out`. -/
theorem C5_saturation_split (h3cell : ℚ → ℚ → String)
    (dbGet : ℚ → ℚ → ℤ → Option (List Venue)) (cosOfLat : ℚ → ℚ)
    (lat lon : ℚ) (r : ℤ) (s : WState) (data : PageData)
    (hmiss : mapGet s.request_cache (cacheKeyW h3cell lat lon r) = none)
    (hdb : dbGet lat lon r = none)
    (hlen : data.results.length ≥ 60) (hr : r > 500) :
    split_tile cosOfLat lat lon r =
      [(lat - (r : ℚ) * (4 / 5) / 111320,
        lon - (r : ℚ) * (4 / 5) / (111320 * cosOfLat lat), max 500 (r / 2)),
       (lat - (r : ℚ) * (4 / 5) / 111320,
        lon + (r : ℚ) * (4 / 5) / (111320 * cosOfLat lat), max 500 (r / 2)),
       (lat + (r : ℚ) * (4 / 5) / 111320,
        lon - (r : ℚ) * (4 / 5) / (111320 * cosOfLat lat), max 500 (r / 2)),
       (lat + (r : ℚ) * (4 / 5) / 111320,
        lon + (r : ℚ) * (4 / 5) / (111320 * cosOfLat lat), max 500 (r / 2))] ∧
    (processJob h3cell dbGet cosOfLat (Except.ok data) (Job.tile lat lon r) s).queue
      = s.queue ++ (split_tile cosOfLat lat lon r).map
          (fun c => Job.tile c.1 c.2.1 c.2.2) ∧
    ((processJob h3cell dbGet cosOfLat (Except.ok data) (Job.tile lat lon r) s).queue).length
      = s.queue.length + 4 ∧
    (processJob h3cell dbGet cosOfLat (Except.ok data) (Job.tile lat lon r) s).results_out
      = s.results_out := by
  have hstep := processJob_fetch_saturated h3cell dbGet cosOfLat lat lon r s data
    hmiss hdb hlen
  have hfin := tileFinish_saturated h3cell cosOfLat lat lon r data.results s hlen hr
  refine ⟨rfl, ?_, ?_, ?_⟩
  · rw [hstep]
    exact hfin.1
  · rw [hstep, hfin.1]
    simp [split_tile]
  · rw [hstep]
    exact hfin.2

theorem C5_saturation_split_witness :
    mapGet (initW []).request_cache (cacheKeyW h3cFix 0 0 1500) = none ∧
    dbMiss 0 0 1500 = none ∧
    pageSat.results.length ≥ 60 ∧ (1500 : ℤ) > 500 ∧
    (processJob h3cFix dbMiss cosFix (Except.ok pageSat) (Job.tile 0 0 1500)
        (initW [])).queue
      = (initW []).queue ++ (split_tile cosFix 0 0 1500).map
          (fun c => Job.tile c.1 c.2.1 c.2.2) :=
  ⟨rfl, rfl, by decide, by decide,
   (C5_saturation_split h3cFix dbMiss cosFix 0 0 1500 (initW []) pageSat
      rfl rfl (by decide) (by decide)).2.1⟩

/-- C9: an exception raised during a job's fetch is caught inside the
worker and yields an empty venue list for that tile only: the only state
change is appending `(lat, lon, tile_r, [])` to `results_out` — for a Tile
job on a double cache miss (the only fetching case) as for a Paginate
job — and an empty per-tile bucket contributes nothing to the flattened
final result, which keeps the venues of all other tiles. -/
theorem C9_exception_isolated (h3cell : ℚ → ℚ → String)
    (dbGet : ℚ → ℚ → ℤ → Option (List Venue)) (cosOfLat : ℚ → ℚ)
    (lat lon : ℚ) (r : ℤ) (tok : String) (s : WState)
    (hmiss : mapGet s.request_cache (cacheKeyW h3cell lat lon r) = none)
    (hdb : dbGet lat lon r = none) :
    processJob h3cell dbGet cosOfLat (Except.error ()) (Job.tile lat lon r) s
      = { s with results_out := s.results_out ++ [(lat, lon, r, [])] } ∧
    processJob h3cell dbGet cosOfLat (Except.error ()) (Job.paginate tok lat lon r) s
      = { s with results_out := s.results_out ++ [(lat, lon, r, [])] } ∧
    ∀ rs1 rs2 : List TileResult,
      flattenDedup (rs1 ++ (lat, lon, r, ([] : List Venue)) :: rs2)
        = flattenDedup (rs1 ++ rs2) := by
  refine ⟨?_, rfl, ?_⟩
  · simp only [processJob]
    split
    · rename_i cached hc
      rw [hmiss] at hc
      cases hc
    · split
      · rename_i v vs hc
        rw [hdb] at hc
        cases hc
      · rfl
  · intro rs1 rs2
    unfold flattenDedup
    simp

theorem C9_exception_isolated_witness :
    mapGet (initW []).request_cache (cacheKeyW h3cFix 0 0 1500) = none ∧
    dbMiss 0 0 1500 = none ∧
    (processJob h3cFix dbMiss cosFix (Except.error ()) (Job.tile 0 0 1500) (initW [])
       = { initW [] with
           results_out := (initW []).results_out ++ [(0, 0, 1500, [])] } ∧
     processJob h3cFix dbMiss cosFix (Except.error ())
         (Job.paginate "t" 0 0 1500) (initW [])
       = { initW [] with
           results_out := (initW []).results_out ++ [(0, 0, 1500, [])] } ∧
     ∀ rs1 rs2 : List TileResult,
       flattenDedup (rs1 ++ (0, 0, 1500, ([] : List Venue)) :: rs2)
         = flattenDedup (rs1 ++ rs2)) :=
  ⟨rfl, rfl,
   C9_exception_isolated h3cFix dbMiss cosFix 0 0 1500 "t" (initW []) rfl rfl⟩

/-- C2 counterexample: seeding one tile and answering every page with a
fresh continuation token, the run processes 4 jobs — the tile fetch plus 3
pagination fetches, i.e. 4 provider pages for this tile, every one a cache
miss — and the queue still holds a 5th Paginate job for the same tile: the
worker enqueues a further Paginate job although 3 pages (and more) have
already been fetched, so no 3-page ceiling is enforced. -/
theorem C2_counterexample :
    (runQueue h3cFix dbMiss cosFix orcPages 4 (initW [Job.tile 0 0 1500])).steps = 4 ∧
    (runQueue h3cFix dbMiss cosFix orcPages 4 (initW [Job.tile 0 0 1500])).queue
      = [Job.paginate "t4" 0 0 1500] := by decide

/-- Helper: the pagination loop of `fetch_pages` performs at most `fuel`
further provider requests. -/
theorem fetch_pages_go_le (pages : ℕ → PageData) :
    ∀ (fuel idx : ℕ) (out : List Venue) (tok : Option String),
      (fetch_pages_go pages fuel idx out tok).2 ≤ fuel := by
  intro fuel
  induction fuel with
  | zero =>
    intro idx out tok
    cases tok <;> simp [fetch_pages_go]
  | succ n ih =>
    intro idx out tok
    cases tok with
    | none => simp [fetch_pages_go]
    | some t =>
      unfold fetch_pages_go
      by_cases h : t = ""
      · rw [if_pos h]
        exact Nat.zero_le _
      · rw [if_neg h]
        by_cases h2 : (pages idx).status = "OK"
        · rw [if_pos h2]
          have hrec := ih (idx + 1) (mergeDedup out (pages idx).results)
            (pages idx).next_page_token
          simpa using Nat.succ_le_succ hrec
        · rw [if_neg h2]
          exact Nat.succ_le_succ (Nat.zero_le n)

/-- C2 amended: the worker's Paginate branch enqueues a further Paginate
job whenever the page has status `OK` and carries a continuation token,
with no page-count ceiling; only the standalone `fetch_pages` helper
(which the worker-queue search does not call) bounds a tile to at most 3
provider requests. -/
theorem C2_paginate_no_ceiling :
    (∀ (h3cell : ℚ → ℚ → String) (dbGet : ℚ → ℚ → ℤ → Option (List Venue))
       (cosOfLat : ℚ → ℚ) (tok : String) (lat lon : ℚ) (r : ℤ) (s : WState)
       (data : PageData) (t : String),
       data.status = "OK" → truthyStr data.next_page_token = some t →
       (processJob h3cell dbGet cosOfLat (Except.ok data)
           (Job.paginate tok lat lon r) s).queue
         = s.queue ++ [Job.paginate t lat lon r]) ∧
    (∀ (first : PageData) (pages : ℕ → PageData),
       (fetch_pages first pages).2 ≤ 3) := by
  constructor
  · intro h3cell dbGet cosOfLat tok lat lon r s data t hst htok
    simp only [processJob]
    rw [if_pos hst]
    split
    · rename_i t2 heq
      rw [htok] at heq
      injection heq with h2
      rw [h2]
    · rename_i heq
      rw [htok] at heq
      cases heq
  · intro first pages
    unfold fetch_pages
    by_cases h : first.status = "OK" ∨ first.status = "ZERO_RESULTS"
    · rw [if_pos h]
      have hrec := fetch_pages_go_le pages 2 0 (mergeDedup [] first.results)
        first.next_page_token
      simpa using Nat.succ_le_succ hrec
    · rw [if_neg h]
      simp

theorem C2_paginate_no_ceiling_witness :
    pageTok.status = "OK" ∧ truthyStr pageTok.next_page_token = some "t9" ∧
    (processJob h3cFix dbMiss cosFix (Except.ok pageTok)
        (Job.paginate "t8" 0 0 1500) (initW [])).queue
      = (initW []).queue ++ [Job.paginate "t9" 0 0 1500] ∧
    (fetch_pages pageTok (fun _ => pageTok)).2 ≤ 3 :=
  ⟨rfl, by decide,
   C2_paginate_no_ceiling.1 h3cFix dbMiss cosFix "t8" 0 0 1500 (initW [])
     pageTok "t9" rfl (by decide),
   C2_paginate_no_ceiling.2 pageTok (fun _ => pageTok)⟩

/-- C3 counterexample: a tile whose pagination completes with a 61-venue
deduplicated aggregate on a 1500 m tile (61 ≥ 60 and 1500 > 500) is
appended to `results_out` and no child tiles are enqueued: the saturation
check is not applied to the aggregate when pagination completes. -/
theorem C3_counterexample :
    (runQueue h3cFix dbMiss cosFix orcBigAgg 2 (initW [Job.tile 0 0 1500])).results_out
      = [(0, 0, 1500, mkVs 61)] ∧
    (runQueue h3cFix dbMiss cosFix orcBigAgg 2 (initW [Job.tile 0 0 1500])).queue = [] ∧
    (mkVs 61).length ≥ 60 ∧ (1500 : ℤ) > 500 := by decide

/-- Helper: a dict read immediately after a write of the same key returns
the written value. -/
theorem mapGet_mapSet_same {α : Type} (m : List (String × α)) (k : String) (v : α) :
    mapGet (mapSet m k v) k = some v := by
  simp [mapGet, mapSet]

/-- C3 amended: when pagination for a tile completes (status `OK`, no
further continuation token), the full deduplicated aggregate is cached and
appended to the output unconditionally — no saturation check is applied to
the aggregate, however large it is and whatever the tile radius; the queue
is left unchanged (no child tiles). -/
theorem C3_paginate_complete_no_saturation (h3cell : ℚ → ℚ → String)
    (dbGet : ℚ → ℚ → ℤ → Option (List Venue)) (cosOfLat : ℚ → ℚ)
    (tok : String) (lat lon : ℚ) (r : ℤ) (s : WState) (data : PageData)
    (hst : data.status = "OK")
    (htok : truthyStr data.next_page_token = none) :
    let key := cacheKeyW h3cell lat lon r
    let full := mergeDedup ((mapGet s.aggregate key).getD []) data.results
    (processJob h3cell dbGet cosOfLat (Except.ok data)
        (Job.paginate tok lat lon r) s).results_out
      = s.results_out ++ [(lat, lon, r, full)] ∧
    (processJob h3cell dbGet cosOfLat (Except.ok data)
        (Job.paginate tok lat lon r) s).queue = s.queue ∧
    (processJob h3cell dbGet cosOfLat (Except.ok data)
        (Job.paginate tok lat lon r) s).cache_writes
      = s.cache_writes ++ [(key, lat, lon, r, full)] ∧
    (processJob h3cell dbGet cosOfLat (Except.ok data)
        (Job.paginate tok lat lon r) s).request_cache
      = mapSet s.request_cache key full := by
  intro key full
  simp only [processJob]
  rw [if_pos hst]
  split
  · rename_i t2 heq
    rw [htok] at heq
    cases heq
  · rename_i heq
    rw [mapGet_mapSet_same]
    exact ⟨rfl, rfl, rfl, rfl⟩

theorem C3_paginate_complete_no_saturation_witness :
    pageEnd.status = "OK" ∧ truthyStr pageEnd.next_page_token = none ∧
    ((processJob h3cFix dbMiss cosFix (Except.ok pageEnd)
         (Job.paginate "t1" 0 0 1500) (initW [])).results_out
       = (initW []).results_out ++
           [(0, 0, 1500,
             mergeDedup ((mapGet (initW []).aggregate
               (cacheKeyW h3cFix 0 0 1500)).getD []) pageEnd.results)] ∧
     (processJob h3cFix dbMiss cosFix (Except.ok pageEnd)
         (Job.paginate "t1" 0 0 1500) (initW [])).queue = (initW []).queue ∧
     (processJob h3cFix dbMiss cosFix (Except.ok pageEnd)
         (Job.paginate "t1" 0 0 1500) (initW [])).cache_writes
       = (initW []).cache_writes ++
           [(cacheKeyW h3cFix 0 0 1500, 0, 0, 1500,
             mergeDedup ((mapGet (initW []).aggregate
               (cacheKeyW h3cFix 0 0 1500)).getD []) pageEnd.results)] ∧
     (processJob h3cFix dbMiss cosFix (Except.ok pageEnd)
         (Job.paginate "t1" 0 0 1500) (initW [])).request_cache
       = mapSet (initW []).request_cache (cacheKeyW h3cFix 0 0 1500)
           (mergeDedup ((mapGet (initW []).aggregate
             (cacheKeyW h3cFix 0 0 1500)).getD []) pageEnd.results)) :=
  ⟨rfl, rfl,
   C3_paginate_complete_no_saturation h3cFix dbMiss cosFix "t1" 0 0 1500
     (initW []) pageEnd rfl rfl⟩

/-- Helper: the hex-diameter table is positive at every resolution the
adaptive choice can produce. -/
theorem hex_diameter_pos (y : ℚ) : 0 < hex_diameter_km (h3_resolution y) := by
  unfold h3_resolution
  split
  · norm_num [hex_diameter_km]
  · split
    · norm_num [hex_diameter_km]
    · norm_num [hex_diameter_km]

/-- C4 counterexample: at radius 1000 m (resolution 8, cell diameter
0.74 km) the code computes `max(1, int(1/0.74) + 1) = 2` rings while the
specified formula `ceil(1/0.74) + 1` gives 3. -/
theorem C4_counterexample : rings_needed 1000 = 2 ∧ rings_needed_spec 1000 = 3 := by
  have hres : h3_resolution (((1000 : ℤ) : ℚ) / 1000) = 8 := by
    unfold h3_resolution
    rw [if_pos (by norm_num)]
  have hx : (((1000 : ℤ) : ℚ) / 1000)
      / hex_diameter_km (h3_resolution (((1000 : ℤ) : ℚ) / 1000)) = 50 / 37 := by
    rw [hres]
    norm_num [hex_diameter_km]
  have hfl : Int.floor ((50 : ℚ) / 37) = 1 := by
    rw [Int.floor_eq_iff]; norm_num
  have hcl : Int.ceil ((50 : ℚ) / 37) = 2 := by
    rw [Int.ceil_eq_iff]; norm_num
  constructor
  · simp only [rings_needed, pyInt]
    rw [hx, if_pos (by norm_num), hfl]
    decide
  · simp only [rings_needed_spec]
    rw [hx, hcl]
    decide

/-- C4 amended: for a nonnegative search radius, the ring count is
`floor(radius_km / cell_diameter_km) + 1` (truncating division, not the
specified ceiling), which still never under-covers the requested radius:
`rings × diameter ≥ radius`. -/
theorem C4_rings_floor_plus_one (radius_m : ℤ) (h : 0 ≤ radius_m) :
    rings_needed radius_m
      = Int.floor (((radius_m : ℚ) / 1000)
          / hex_diameter_km (h3_resolution ((radius_m : ℚ) / 1000))) + 1 ∧
    ((radius_m : ℚ) / 1000)
      ≤ (rings_needed radius_m : ℚ)
          * hex_diameter_km (h3_resolution ((radius_m : ℚ) / 1000)) := by
  have hd := hex_diameter_pos ((radius_m : ℚ) / 1000)
  have hkm : (0 : ℚ) ≤ (radius_m : ℚ) / 1000 :=
    div_nonneg (by exact_mod_cast h) (by norm_num)
  have hx0 : (0 : ℚ) ≤ ((radius_m : ℚ) / 1000)
      / hex_diameter_km (h3_resolution ((radius_m : ℚ) / 1000)) :=
    div_nonneg hkm (le_of_lt hd)
  have hfl : 0 ≤ Int.floor (((radius_m : ℚ) / 1000)
      / hex_diameter_km (h3_resolution ((radius_m : ℚ) / 1000))) :=
    Int.floor_nonneg.mpr hx0
  have heq : rings_needed radius_m
      = Int.floor (((radius_m : ℚ) / 1000)
          / hex_diameter_km (h3_resolution ((radius_m : ℚ) / 1000))) + 1 := by
    simp only [rings_needed, pyInt]
    rw [if_pos hx0, max_eq_right (by omega)]
  refine ⟨heq, ?_⟩
  rw [heq]
  have h1 : ((radius_m : ℚ) / 1000)
        / hex_diameter_km (h3_resolution ((radius_m : ℚ) / 1000))
      < (Int.floor (((radius_m : ℚ) / 1000)
          / hex_diameter_km (h3_resolution ((radius_m : ℚ) / 1000))) : ℚ) + 1 :=
    Int.lt_floor_add_one _
  rw [div_lt_iff₀ hd] at h1
  push_cast
  linarith

theorem C4_rings_floor_plus_one_witness :
    0 ≤ (1000 : ℤ) ∧
    (rings_needed 1000
       = Int.floor ((((1000 : ℤ) : ℚ) / 1000)
           / hex_diameter_km (h3_resolution (((1000 : ℤ) : ℚ) / 1000))) + 1 ∧
     (((1000 : ℤ) : ℚ) / 1000)
       ≤ (rings_needed 1000 : ℚ)
           * hex_diameter_km (h3_resolution (((1000 : ℤ) : ℚ) / 1000))) :=
  ⟨by decide, C4_rings_floor_plus_one 1000 (by decide)⟩

/-- Helper: every row of the upserted table that has the written key now
carries the written venues and the written expiry. -/
theorem upsertRow_key_fields (now : ℤ) (key : String) (lat lon : ℚ) (r : ℤ)
    (data : List Venue) (E : ℤ) (store : List CacheRow) (row : CacheRow)
    (hmem : row ∈ upsertRow now key lat lon r data E store)
    (hkey : row.cache_key = key) :
    row.results_data = data ∧ row.expires_at = E := by
  unfold upsertRow at hmem
  by_cases hany : store.any (fun row => decide (row.cache_key = key)) = true
  · rw [if_pos hany] at hmem
    rcases List.mem_map.mp hmem with ⟨row0, hrow0, heq⟩
    by_cases hk0 : row0.cache_key = key
    · rw [if_pos hk0] at heq
      rw [← heq]
      exact ⟨rfl, rfl⟩
    · rw [if_neg hk0] at heq
      rw [← heq] at hkey
      exact absurd hkey hk0
  · rw [if_neg hany] at hmem
    rcases List.mem_append.mp hmem with hin | hnew
    · exfalso
      apply hany
      exact List.any_eq_true.mpr ⟨row, hin, by simp [hkey]⟩
    · have hr := List.mem_singleton.mp hnew
      rw [hr]
      exact ⟨rfl, rfl⟩

/-- Helper: after the upsert, some row carries the written key. -/
theorem upsertRow_has_key (now : ℤ) (key : String) (lat lon : ℚ) (r : ℤ)
    (data : List Venue) (E : ℤ) (store : List CacheRow) :
    ∃ row ∈ upsertRow now key lat lon r data E store, row.cache_key = key := by
  unfold upsertRow
  by_cases hany : store.any (fun row => decide (row.cache_key = key)) = true
  · rw [if_pos hany]
    rcases List.any_eq_true.mp hany with ⟨row0, hrow0, hk⟩
    have hk0 : row0.cache_key = key := of_decide_eq_true hk
    refine ⟨if row0.cache_key = key then
        { row0 with results_data := data, expires_at := E } else row0,
      List.mem_map.mpr ⟨row0, hrow0, rfl⟩, ?_⟩
    rw [if_pos hk0]
    exact hk0
  · rw [if_neg hany]
    exact ⟨⟨key, lat, lon, r, data, now, E⟩,
      List.mem_append.mpr (Or.inr (List.mem_singleton.mpr rfl)), rfl⟩

/-- Helper: if every row with the key carries `data` and expiry `E`, some
row has the key, and the lookup time is before `E`, then the fresh-row
`find?` of `async_get_cached` returns the written venues. -/
theorem find_serves (key : String) (t E : ℤ) (data : List Venue) :
    ∀ l : List CacheRow,
      (∀ row ∈ l, row.cache_key = key → row.results_data = data ∧ row.expires_at = E) →
      (∃ row ∈ l, row.cache_key = key) → t < E →
      ∃ row, l.find? (fun row => decide (row.cache_key = key ∧ t < row.expires_at))
          = some row ∧ row.results_data = data := by
  intro l
  induction l with
  | nil =>
    intro _ hex _
    rcases hex with ⟨_, hmem, _⟩
    cases hmem
  | cons a rest ih =>
    intro hall hex ht
    by_cases ha : a.cache_key = key
    · rcases hall a (List.mem_cons_self _ _) ha with ⟨hdata, hE⟩
      have hpred : (fun row : CacheRow =>
          decide (row.cache_key = key ∧ t < row.expires_at)) a = true := by
        simp [ha, hE, ht]
      exact ⟨a, List.find?_cons_of_pos _ hpred, hdata⟩
    · have hpred : decide (a.cache_key = key ∧ t < a.expires_at) = false := by
        simp [ha]
      rw [List.find?_cons, hpred]
      apply ih
      · intro row hr hk
        exact hall row (List.mem_cons_of_mem _ hr) hk
      · rcases hex with ⟨row, hr, hk⟩
        rcases List.mem_cons.mp hr with hra | h2
        · rw [hra] at hk
          exact absurd hk ha
        · exact ⟨row, h2, hk⟩
      · exact ht

/-- C8: writing a cache entry and reading the same key before its expiry
returns exactly the written venue list; reading at or after the expiry
returns none and leaves no row with that key in the table (the stale row
is deleted), so an expired entry is never served. -/
theorem C8_cache_roundtrip_and_expiry (store : List CacheRow) (now : ℤ)
    (key : String) (lat lon : ℚ) (r : ℤ) (data : List Venue) (ttl_days t : ℤ) :
    (t < now + ttl_days * 86400 →
      (async_get_cached t key
          (async_set_cached now key lat lon r data ttl_days store)).1 = some data) ∧
    (now + ttl_days * 86400 ≤ t →
      (async_get_cached t key
          (async_set_cached now key lat lon r data ttl_days store)).1 = none ∧
      ∀ row ∈ (async_get_cached t key
          (async_set_cached now key lat lon r data ttl_days store)).2,
        row.cache_key ≠ key) := by
  have hall : ∀ row ∈ async_set_cached now key lat lon r data ttl_days store,
      row.cache_key = key →
      row.results_data = data ∧ row.expires_at = now + ttl_days * 86400 :=
    fun row hmem hk =>
      upsertRow_key_fields now key lat lon r data (now + ttl_days * 86400)
        store row hmem hk
  constructor
  · intro ht
    rcases find_serves key t (now + ttl_days * 86400) data
        (async_set_cached now key lat lon r data ttl_days store) hall
        (upsertRow_has_key now key lat lon r data (now + ttl_days * 86400) store)
        ht with ⟨row, hf, hdata⟩
    unfold async_get_cached
    rw [hf]
    simp [hdata]
  · intro ht
    have hnone : (async_set_cached now key lat lon r data ttl_days store).find?
        (fun row => decide (row.cache_key = key ∧ t < row.expires_at)) = none := by
      apply List.find?_eq_none.mpr
      intro row hr
      simp only [decide_eq_true_eq, not_and]
      intro hk hlt
      rcases hall row hr hk with ⟨_, hE⟩
      omega
    constructor
    · unfold async_get_cached
      rw [hnone]
    · intro row hr
      unfold async_get_cached at hr
      rw [hnone] at hr
      rcases List.mem_filter.mp hr with ⟨hmem, hp⟩
      intro hk
      rcases hall row hmem hk with ⟨_, hE⟩
      simp only [decide_eq_true_eq] at hp
      exact hp ⟨hk, by omega⟩

theorem C8_cache_roundtrip_and_expiry_witness :
    ((5 : ℤ) < 0 + 7 * 86400 ∧
     (async_get_cached 5 "k" (async_set_cached 0 "k" 0 0 1500 [vGym] 7 [])).1
       = some [vGym]) ∧
    ((0 : ℤ) + 7 * 86400 ≤ 604800 ∧
     (async_get_cached 604800 "k" (async_set_cached 0 "k" 0 0 1500 [vGym] 7 [])).1
       = none ∧
     ∀ row ∈ (async_get_cached 604800 "k"
         (async_set_cached 0 "k" 0 0 1500 [vGym] 7 [])).2,
       row.cache_key ≠ "k") :=
  ⟨⟨by decide,
    (C8_cache_roundtrip_and_expiry [] 0 "k" 0 0 1500 [vGym] 7 5).1 (by decide)⟩,
   ⟨by decide,
    (C8_cache_roundtrip_and_expiry [] 0 "k" 0 0 1500 [vGym] 7 604800).2 (by decide)⟩⟩
